import Mathlib

/-!
Verification of the InvestInGas relayer's Intent-to-Settlement Orchestrator.

The definitions below are a shallow embedding of the TypeScript source:
the Purchase and Redeem workflows of `src/index.ts`, the position
enumeration and signature verification of `src/evm-client.ts` (and the
exhaustive-scan variant of the older client), the LiFi same-chain test of
`lifi-client.ts`, and the staleness predicate of `sui-reader.ts`.
External collaborators (chain RPC, oracle, bridge, signature recovery) are
modelled as explicit environments of functions returning `Option` results,
where `none` stands for a thrown/rejected call.
-/

/-! ## Data model -/

/-- A gas price observation as produced by `SuiOracleReader.fetchChainPrice`. -/
structure SuiGasPrice where
  chain : String
  priceWei : String
  priceGwei : String
  high24h : String
  low24h : String
  timestampMs : Int
  gasToken : String
deriving DecidableEq

/-- The on-chain position tuple returned by the hook's `getPosition` view. -/
structure PositionDetail where
  wethAmount : Int
  remainingWethAmount : Int
  lockedGasPriceWei : Int
  purchaseTimestamp : Int
  expiry : Int
  targetChain : String
deriving DecidableEq

/-- The `GasPosition` record assembled by `EvmHookClient.getPosition`. -/
structure GasPosition where
  tokenId : Nat
  wethAmount : Int
  remainingWethAmount : Int
  lockedGasPriceWei : Int
  purchaseTimestamp : Int
  expiry : Int
  targetChain : String
  owner : String
deriving DecidableEq

/-- JS `toLowerCase()` on the ASCII hex addresses and chain names this
service handles: per-character lowercasing. -/
def toLowerStr (s : String) : String :=
  ⟨s.data.map Char.toLower⟩

/-- Value of a decimal digit string, folded left to right; `none` on any
non-digit character. -/
def decDigitsVal : List Char → Nat → Option Nat
  | [], acc => some acc
  | c :: rest, acc =>
    if c.isDigit then decDigitsVal rest (10 * acc + (c.toNat - 48)) else none

/-- JS `BigInt(string)` conversion on the inputs this service receives: a
whitespace-only string converts to `0`, signed decimal numerals convert to
their value, and any other input (including a bare sign) throws, modelled as
`none`. -/
def jsBigInt (s : String) : Option Int :=
  match (s.data.dropWhile Char.isWhitespace).reverse.dropWhile Char.isWhitespace
      |>.reverse with
  | [] => some 0
  | '+' :: ds => if ds = [] then none else (decDigitsVal ds 0).map Int.ofNat
  | '-' :: ds => if ds = [] then none else (decDigitsVal ds 0).map (fun n => -(n : Int))
  | ds => (decDigitsVal ds 0).map Int.ofNat

/-! ## Price Gate (`sui-reader.ts`) -/

/-- Staleness test of `SuiOracleReader.isPriceStale`, applied to the result
of `fetchChainPrice`: a missing price is stale, otherwise the price is stale
iff `now - price.timestampMs > maxAgeMs`.  The same expression guards the
`/api/prices/:chain` and `/api/purchase` endpoints in `index.ts`. -/
def isPriceStale (fetched : Option SuiGasPrice) (nowMs maxAgeMs : Int) : Bool :=
  match fetched with
  | none => true
  | some price => decide (nowMs - price.timestampMs > maxAgeMs)

/-- The five-minute staleness threshold `PRICE_STALENESS_MS` of `index.ts`. -/
def PRICE_STALENESS_MS : Int := 5 * 60 * 1000

/-! ## Intent Verifier (`evm-client.ts`, static verify methods) -/

/-- The field set of an EIP-712 `Purchase` intent, exactly as assembled in
`EvmHookClient.verifyPurchaseSignature`. -/
structure PurchaseIntent where
  user : String
  usdcAmount : Int
  targetChain : String
  expiryDays : Int
  timestamp : Int
deriving DecidableEq

/-- The field set of an EIP-712 `Redeem` intent, exactly as assembled in
`EvmHookClient.verifyRedeemSignature`. -/
structure RedeemIntent where
  user : String
  tokenId : Int
  wethAmount : Int
  timestamp : Int
deriving DecidableEq

/-- `EvmHookClient.verifyPurchaseSignature`: recover the signer of the typed
purchase intent (`recover` abstracts `ethers.verifyTypedData`; `none` is a
throw, caught by the surrounding try/catch and turned into `false`), then
compare the recovered address with the claimed user case-insensitively. -/
def verifyPurchaseSignature (recover : PurchaseIntent → String → Option String)
    (user : String) (usdcAmount : Int) (targetChain : String) (expiryDays : Int)
    (timestamp : Int) (signature : String) : Bool :=
  match recover ⟨user, usdcAmount, targetChain, expiryDays, timestamp⟩ signature with
  | none => false
  | some recovered => toLowerStr recovered == toLowerStr user

/-- `EvmHookClient.verifyRedeemSignature`, same shape as the purchase
variant over the redeem intent fields. -/
def verifyRedeemSignature (recover : RedeemIntent → String → Option String)
    (user : String) (tokenId : Int) (wethAmount : Int)
    (timestamp : Int) (signature : String) : Bool :=
  match recover ⟨user, tokenId, wethAmount, timestamp⟩ signature with
  | none => false
  | some recovered => toLowerStr recovered == toLowerStr user

/-! ## Settlement Router helper (`lifi-client.ts`) -/

/-- `LiFiClient.isSameChain`: string equality of the two chain names. -/
def isSameChain (fromChain toChain : String) : Bool :=
  fromChain == toChain

/-! ## Position Registry (`evm-client.ts`) -/

/-- The settlement collaborator as seen by `EvmHookClient`'s read model:
each call either returns a value or throws (`none`). -/
structure ChainEnv where
  balanceOf : String → Option Nat
  ownerOf : Nat → Option String
  getPositionRaw : Nat → Option PositionDetail

/-- `EvmHookClient.getPosition`: compose the ownership lookup with the
position-detail view; any failure yields `null` (`none`). -/
def getPositionM (env : ChainEnv) (tokenId : Nat) : Option GasPosition :=
  match env.ownerOf tokenId with
  | none => none
  | some owner =>
    match env.getPositionRaw tokenId with
    | none => none
    | some pos =>
      some ⟨tokenId, pos.wethAmount, pos.remainingWethAmount, pos.lockedGasPriceWei,
            pos.purchaseTimestamp, pos.expiry, pos.targetChain, owner⟩

/-- `EvmHookClient.getPosition` as called from `index.ts` with
`parseInt(tokenId)`: a negative id makes the contract call throw, which the
method catches into `null`. -/
def getPositionI (env : ChainEnv) (tokenId : Int) : Option GasPosition :=
  if tokenId < 0 then none else getPositionM env tokenId.toNat

/-- One candidate token id inside the scan of `getUserPositions`: look up the
owner (a failed lookup means the token does not exist and is skipped), compare
case-insensitively with the queried user, and materialise the position. -/
def scanStep (env : ChainEnv) (user : String) (tokenId : Nat) : Option GasPosition :=
  match env.ownerOf tokenId with
  | none => none
  | some owner =>
    if toLowerStr owner == toLowerStr user then getPositionM env tokenId else none

/-- The exhaustive `getUserPositions` of the older client (`part_002`): a
plain linear scan of ids `0 .. maxTokenId - 1`. -/
def getUserPositionsLinear (env : ChainEnv) (user : String) (maxTokenId : Nat) :
    List GasPosition :=
  (List.range maxTokenId).filterMap (scanStep env user)

/-- One batch of the optimised scan: positions found so far are accumulated,
and after every id the found count is compared with the previously-read
balance; reaching it returns early (`true` = stop). -/
def scanBatch (env : ChainEnv) (user : String) (bal : Nat) :
    List Nat → List GasPosition → List GasPosition × Bool
  | [], acc => (acc, false)
  | tokenId :: rest, acc =>
    let acc2 := match scanStep env user tokenId with
      | some pos => acc ++ [pos]
      | none => acc
    if bal ≤ acc2.length then (acc2, true)
    else scanBatch env user bal rest acc2

/-- The sequence of batches of the optimised scan.  The second component
counts the ownership lookups issued: every id of a processed batch is looked
up (the batch's promises are all created before the batch is awaited), and
no lookup is issued after the batch in which the scan stopped. -/
def scanBatches (env : ChainEnv) (user : String) (bal : Nat) :
    List (List Nat) → List GasPosition → List GasPosition × Nat
  | [], acc => (acc, 0)
  | b :: bs, acc =>
    match scanBatch env user bal b acc with
    | (acc2, true) => (acc2, b.length)
    | (acc2, false) =>
      let r := scanBatches env user bal bs acc2
      (r.1, b.length + r.2)

/-- The batching of candidate ids: slices of `batchSize = 50`, mirroring the
`for (let i = 0; i < maxScanId; i += batchSize)` loop.  The fuel argument only
bounds the recursion and is in practice at least the number of batches. -/
def chunk50 : Nat → List Nat → List (List Nat)
  | 0, _ => []
  | _ + 1, [] => []
  | fuel + 1, tokenId :: ids =>
    (tokenId :: ids).take 50 :: chunk50 fuel ((tokenId :: ids).drop 50)

/-- `EvmHookClient.getUserPositions` of the current client, with its lookup
count: read the user's balance first (a throwing read is caught by the outer
handler and yields the empty list), return immediately on a zero balance, and
otherwise scan ids `0 .. maxScanId - 1` in batches of 50 with the early stop. -/
def getUserPositionsRun (env : ChainEnv) (user : String) (maxScanId : Nat) :
    List GasPosition × Nat :=
  match env.balanceOf user with
  | none => ([], 0)
  | some bal =>
    if bal = 0 then ([], 0)
    else scanBatches env user bal (chunk50 maxScanId (List.range maxScanId)) []

/-- The position list returned by `EvmHookClient.getUserPositions`. -/
def getUserPositions (env : ChainEnv) (user : String) (maxScanId : Nat) :
    List GasPosition :=
  (getUserPositionsRun env user maxScanId).1

/-- Whether the queried user owns a token id, as tested by the scan: the
ownership lookup succeeds and matches case-insensitively. -/
def ownedBy (env : ChainEnv) (user : String) (tokenId : Nat) : Bool :=
  match env.ownerOf tokenId with
  | none => false
  | some owner => toLowerStr owner == toLowerStr user

/-! ## Orchestrator — Purchase workflow (`index.ts`, `POST /api/purchase`) -/

/-- The JSON body of a purchase request.  `none` is an absent field; string
fields are additionally falsy when empty, numeric fields when zero, matching
the `!field` validation of the handler. -/
structure PurchaseReq where
  user : Option String
  usdcAmount : Option String
  targetChain : Option String
  expiryDays : Option Int
  userSignature : Option String
  timestamp : Option Int

/-- Collaborators of the purchase workflow.  `purchase` is the single
state-mutating settlement call (`EvmHookClient.purchasePosition`), returning
a transaction hash and minted token id, or throwing (`none`).
`verifyPurchase` abstracts the boolean intent verifier. -/
structure PurchaseEnv where
  isChainSupported : String → Option Bool
  fetchChainPrice : String → Option SuiGasPrice
  verifyPurchase : String → Int → String → Int → Int → String → Bool
  purchase : Int → Int → Int → String → Int → String → Option (String × Int)
  nowMs : Int

/-- Tagged outcome of the purchase handler.  `serverError` is the catch-all
500 path for uncaught throws. -/
inductive PurchaseResult
  | validationError
  | unsupportedChain
  | priceUnavailable
  | stalePrice (staleSinceMs : Int)
  | signatureInvalid
  | serverError
  | success (txHash : String) (tokenId : Int) (lockedGasPriceWei : Int)
      (lockedGasPriceGwei : String) (expiryTimestamp : Int)
deriving DecidableEq

/-- The state-mutating calls issued by the purchase workflow. -/
inductive PurchaseCall
  | purchaseCall (usdcAmount minWethOut lockedGasPriceWei : Int)
      (targetChain : String) (expiryDuration : Int) (buyer : String)
deriving DecidableEq

/-- Whether a purchase outcome is a failure of validation steps 1-5
(field validation, chain support, price availability, staleness,
signature), as opposed to success or a downstream throw. -/
def isEarlyPurchaseFailure : PurchaseResult → Bool
  | .validationError => true
  | .unsupportedChain => true
  | .priceUnavailable => true
  | .stalePrice _ => true
  | .signatureInvalid => true
  | _ => false

/-- The `POST /api/purchase` handler of `index.ts`: validate fields, check
chain support, fetch the oracle price, reject stale prices, verify the
intent signature, then issue the single `purchasePosition` settlement call.
The second component records the mutating calls issued. -/
def purchaseWorkflow (env : PurchaseEnv) (req : PurchaseReq) :
    PurchaseResult × List PurchaseCall :=
  match req.user, req.usdcAmount, req.targetChain, req.expiryDays,
      req.userSignature, req.timestamp with
  | some user, some usdcAmount, some targetChain, some expiryDays, some sig, some ts =>
    if user = "" ∨ usdcAmount = "" ∨ targetChain = "" ∨ expiryDays = 0 ∨ sig = "" ∨ ts = 0 then
      (.validationError, [])
    else
      match env.isChainSupported targetChain with
      | none => (.serverError, [])
      | some false => (.unsupportedChain, [])
      | some true =>
        match env.fetchChainPrice targetChain with
        | none => (.priceUnavailable, [])
        | some gasPrice =>
          if env.nowMs - gasPrice.timestampMs > PRICE_STALENESS_MS then
            (.stalePrice (env.nowMs - gasPrice.timestampMs), [])
          else
            match jsBigInt usdcAmount with
            | none => (.serverError, [])
            | some usdc =>
              if ¬ env.verifyPurchase user usdc targetChain expiryDays ts sig then
                (.signatureInvalid, [])
              else
                match jsBigInt gasPrice.priceWei with
                | none => (.serverError, [])
                | some lockedGasPriceWei =>
                  let expiryDuration := expiryDays * 24 * 60 * 60
                  match env.purchase usdc 0 lockedGasPriceWei targetChain expiryDuration user with
                  | none => (.serverError,
                      [.purchaseCall usdc 0 lockedGasPriceWei targetChain expiryDuration user])
                  | some minted =>
                    (.success minted.1 minted.2 lockedGasPriceWei gasPrice.priceGwei
                        (env.nowMs / 1000 + expiryDuration),
                      [.purchaseCall usdc 0 lockedGasPriceWei targetChain expiryDuration user])
  | _, _, _, _, _, _ => (.validationError, [])

/-! ## Orchestrator — Redeem workflow (`index.ts`, `POST /api/redeem`) -/

/-- The JSON body of a redeem request.  `tokenId` is only checked for
presence (`tokenId === undefined`), so a zero id is accepted. -/
structure RedeemReq where
  user : Option String
  tokenId : Option Int
  wethAmount : Option String
  userSignature : Option String
  timestamp : Option Int

/-- A bridge quote as returned by `LiFiClient.getQuote`. -/
structure LiFiQuote where
  calldata : String
  toAddress : String
  minReceive : Int
  bridgeTool : String
  estimatedReceive : Int
deriving DecidableEq

/-- Collaborators and configuration of the redeem workflow.  `redeemPosition`
is the single state-mutating settlement call; `getQuote` the bridge
collaborator; both may throw (`none`). -/
structure RedeemEnv where
  chain : ChainEnv
  verifyRedeem : String → Int → Int → Int → String → Bool
  getQuote : String → String → Int → String → String → Option LiFiQuote
  redeemPosition : Int → Int → String → String → Option String
  sourceChain : String
  bridgerAddress : String
  nowSec : Int

/-- Routing information reported by a redeem. -/
inductive BridgeInfo
  | direct
  | bridge (tool : String) (estimatedReceive minReceive : Int)
deriving DecidableEq

/-- Tagged outcome of the redeem handler. -/
inductive RedeemResult
  | validationError
  | positionNotFound
  | notOwner
  | positionExpired
  | insufficientBalance
  | signatureInvalid
  | serverError
  | success (txHash : String) (wethRedeemed : Int) (targetChain : String)
      (bridge : BridgeInfo)
deriving DecidableEq

/-- The collaborator calls the redeem workflow can reach after its local
checks: the signature verification, the bridge quote, and the settlement
call. -/
inductive RedeemCall
  | sigVerify
  | quoteCall (fromChain toChain : String) (amount : Int) (fromAddress toAddress : String)
  | settleCall (tokenId amount : Int) (lifiData : String) (recipient : String)
deriving DecidableEq

/-- The `POST /api/redeem` handler of `index.ts`: validate fields, load the
position, check ownership and expiry, resolve the requested amount (the
`"max"` sentinel resolves to the position's remaining balance, any other
string through `BigInt`), reject amounts above the remaining balance, verify
the intent signature, route the redemption (same-chain means no bridge quote
and empty `0x` calldata), and issue the single `redeemPosition` settlement
call.  The second component records the verification, quote and settlement
calls reached. -/
def redeemWorkflow (env : RedeemEnv) (req : RedeemReq) :
    RedeemResult × List RedeemCall :=
  match req.user, req.tokenId, req.wethAmount, req.userSignature, req.timestamp with
  | some user, some tokenId, some wethAmount, some sig, some ts =>
    if user = "" ∨ wethAmount = "" ∨ sig = "" ∨ ts = 0 then (.validationError, [])
    else
      match getPositionI env.chain tokenId with
      | none => (.positionNotFound, [])
      | some position =>
        if toLowerStr position.owner ≠ toLowerStr user then (.notOwner, [])
        else if position.expiry < env.nowSec then (.positionExpired, [])
        else
          match (if wethAmount = "max" then some position.remainingWethAmount
                 else jsBigInt wethAmount) with
          | none => (.serverError, [])
          | some redeemAmount =>
            if redeemAmount > position.remainingWethAmount then
              (.insufficientBalance, [])
            else if ¬ env.verifyRedeem user tokenId redeemAmount ts sig then
              (.signatureInvalid, [.sigVerify])
            else if isSameChain env.sourceChain position.targetChain then
              match env.redeemPosition tokenId redeemAmount "0x" user with
              | none => (.serverError,
                  [.sigVerify, .settleCall tokenId redeemAmount "0x" user])
              | some txHash =>
                (.success txHash redeemAmount position.targetChain .direct,
                  [.sigVerify, .settleCall tokenId redeemAmount "0x" user])
            else
              match env.getQuote env.sourceChain position.targetChain redeemAmount
                  env.bridgerAddress user with
              | none => (.serverError,
                  [.sigVerify, .quoteCall env.sourceChain position.targetChain
                      redeemAmount env.bridgerAddress user])
              | some quote =>
                match env.redeemPosition tokenId redeemAmount quote.calldata user with
                | none => (.serverError,
                    [.sigVerify, .quoteCall env.sourceChain position.targetChain
                        redeemAmount env.bridgerAddress user,
                      .settleCall tokenId redeemAmount quote.calldata user])
                | some txHash =>
                  (.success txHash redeemAmount position.targetChain
                      (.bridge quote.bridgeTool quote.estimatedReceive quote.minReceive),
                    [.sigVerify, .quoteCall env.sourceChain position.targetChain
                        redeemAmount env.bridgerAddress user,
                      .settleCall tokenId redeemAmount quote.calldata user])
  | _, _, _, _, _ => (.validationError, [])

/-! ## Sample collaborators and requests used by the witnesses -/

/-- A position detail used by concrete redeem scenarios: 10 wei remaining
out of 100, unexpired, targeting the source chain. -/
def detC2 : PositionDetail := ⟨100, 10, 1, 0, 99999, "base"⟩

/-- A settlement read model owning token 5 for `0xaaa`. -/
def chainC2 : ChainEnv :=
  ⟨fun _ => some 1,
   fun id => if id = 5 then some "0xaaa" else none,
   fun id => if id = 5 then some detC2 else none⟩

/-- A redeem environment over `chainC2` with an always-true verifier and a
succeeding settlement call, configured on source chain `base`. -/
def envC2 : RedeemEnv :=
  ⟨chainC2, fun _ _ _ _ _ => true, fun _ _ _ _ _ => none,
   fun _ _ _ _ => some "0xtx", "base", "0xbridger", 10⟩

/-- The position materialised from `chainC2` for token 5. -/
def posC2 : GasPosition := ⟨5, 100, 10, 1, 0, 99999, "base", "0xaaa"⟩

/-- Position detail shared by every token of the enumeration scenario. -/
def detC7 : PositionDetail := ⟨1000, 500, 30, 0, 99999, "arbitrum"⟩

/-- The enumeration scenario of the spec: a user owning exactly tokens
2, 57 and 900 (stored in mixed case), with `balanceOf` reporting 3. -/
def scanEnvC7 : ChainEnv :=
  ⟨fun _ => some 3,
   fun id => if id = 2 ∨ id = 57 ∨ id = 900 then some "0xOwner" else none,
   fun _ => some detC7⟩

/-- The position materialised from `scanEnvC7` for a given token id. -/
def posC7 (id : Nat) : GasPosition :=
  ⟨id, 1000, 500, 30, 0, 99999, "arbitrum", "0xOwner"⟩

/-- Position detail of the error-containment scenario. -/
def detC9 : PositionDetail := ⟨7, 3, 2, 0, 555, "base"⟩

/-- A read model where the ownership lookup for token 0 fails (the token was
burned or never minted) while token 1 is owned by the queried user. -/
def chainC9 : ChainEnv :=
  ⟨fun _ => some 1,
   fun id => if id = 1 then some "0xbb" else none,
   fun id => if id = 1 then some detC9 else none⟩

/-- The position materialised from `chainC9` for token 1. -/
def posC9 : GasPosition := ⟨1, 7, 3, 2, 0, 555, "base", "0xbb"⟩

/-- A read model whose initial `balanceOf` read fails while every token is
owned by the queried user. -/
def chainC9b : ChainEnv :=
  ⟨fun _ => none, fun _ => some "0xcc", fun _ => some detC9⟩

/-! ## Theorems -/

/-- C6: for every price observation and every current time, the staleness
predicate with `maxAgeMs = 300000` holds iff `now - price.timestampMs`
strictly exceeds `300000`; at the boundary `now - price.timestampMs = 300000`
the price is not stale. -/
theorem isPriceStale_iff_and_boundary (nowMs : Int) (price : SuiGasPrice) :
    (isPriceStale (some price) nowMs 300000 = true ↔
      nowMs - price.timestampMs > 300000)
    ∧ (nowMs - price.timestampMs = 300000 →
      isPriceStale (some price) nowMs 300000 = false) := by
  constructor
  · simp [isPriceStale]
  · intro h
    simp [isPriceStale, h]

/-- Concrete instance of `isPriceStale_iff_and_boundary`: a price observed at
time 0 is stale when read at 300001 ms, and not stale at exactly 300000 ms. -/
theorem isPriceStale_iff_and_boundary_witness :
    isPriceStale (some ⟨"base", "20000000000", "20.000000", "20000000000",
      "20000000000", 0, "ETH"⟩) 300001 300000 = true
    ∧ isPriceStale (some ⟨"base", "20000000000", "20.000000", "20000000000",
      "20000000000", 0, "ETH"⟩) 300000 300000 = false := by
  refine ⟨?_, ?_⟩
  · exact (isPriceStale_iff_and_boundary 300001
      ⟨"base", "20000000000", "20.000000", "20000000000", "20000000000", 0, "ETH"⟩).1.mpr
      (by decide)
  · exact (isPriceStale_iff_and_boundary 300000
      ⟨"base", "20000000000", "20.000000", "20000000000", "20000000000", 0, "ETH"⟩).2
      (by decide)

/-- C3: both signature verifiers are total boolean functions of their
inputs: a failing recovery (malformed signature, modelled by the recovery
function returning `none`) yields `false` rather than an error, and the
result is `true` exactly when the recovered signer equals the claimed user
up to case. -/
theorem verifySignature_total_boolean
    (recP : PurchaseIntent → String → Option String)
    (recR : RedeemIntent → String → Option String)
    (user : String) (usdcAmount : Int) (targetChain : String) (expiryDays : Int)
    (tokenId wethAmount timestamp : Int) (signature : String) :
    (verifyPurchaseSignature recP user usdcAmount targetChain expiryDays timestamp signature
        = true
      ↔ ∃ r, recP ⟨user, usdcAmount, targetChain, expiryDays, timestamp⟩ signature = some r
          ∧ toLowerStr r = toLowerStr user)
    ∧ (recP ⟨user, usdcAmount, targetChain, expiryDays, timestamp⟩ signature = none →
        verifyPurchaseSignature recP user usdcAmount targetChain expiryDays timestamp signature
          = false)
    ∧ (verifyRedeemSignature recR user tokenId wethAmount timestamp signature = true
      ↔ ∃ r, recR ⟨user, tokenId, wethAmount, timestamp⟩ signature = some r
          ∧ toLowerStr r = toLowerStr user)
    ∧ (recR ⟨user, tokenId, wethAmount, timestamp⟩ signature = none →
        verifyRedeemSignature recR user tokenId wethAmount timestamp signature = false) := by
  refine ⟨?_, ?_, ?_, ?_⟩
  · unfold verifyPurchaseSignature
    cases h : recP ⟨user, usdcAmount, targetChain, expiryDays, timestamp⟩ signature with
    | none => simp
    | some r => simp [beq_iff_eq]
  · intro h
    unfold verifyPurchaseSignature
    rw [h]
  · unfold verifyRedeemSignature
    cases h : recR ⟨user, tokenId, wethAmount, timestamp⟩ signature with
    | none => simp
    | some r => simp [beq_iff_eq]
  · intro h
    unfold verifyRedeemSignature
    rw [h]

/-- Concrete instance of `verifySignature_total_boolean`: a recovery that
throws makes purchase verification return `false`, and a recovery returning
the claimed address in different case makes redeem verification succeed. -/
theorem verifySignature_total_boolean_witness :
    verifyPurchaseSignature (fun _ _ => none) "0xab" 1 "base" 7 1700 "sig" = false
    ∧ verifyRedeemSignature (fun _ _ => some "0xAB") "0xab" 3 2 1700 "sig" = true := by
  constructor
  · exact (verifySignature_total_boolean (fun _ _ => none) (fun _ _ => some "0xAB")
      "0xab" 1 "base" 7 3 2 1700 "sig").2.1 rfl
  · exact (verifySignature_total_boolean (fun _ _ => none) (fun _ _ => some "0xAB")
      "0xab" 1 "base" 7 3 2 1700 "sig").2.2.1.mpr ⟨"0xAB", rfl, by decide⟩

/-- C1: a purchase whose fetched price is older than the 5-minute threshold
fails with the stale-price error reporting the staleness age and issues no
settlement call; more generally any failure at validation steps 1-5 issues
zero state-mutating calls. -/
theorem purchase_stale_rejected_zero_mutations :
    (∀ (env : PurchaseEnv) (req : PurchaseReq) (user usdcAmount targetChain : String)
        (expiryDays : Int) (sig : String) (ts : Int) (gasPrice : SuiGasPrice),
      req.user = some user → req.usdcAmount = some usdcAmount →
      req.targetChain = some targetChain → req.expiryDays = some expiryDays →
      req.userSignature = some sig → req.timestamp = some ts →
      user ≠ "" → usdcAmount ≠ "" → targetChain ≠ "" → expiryDays ≠ 0 →
      sig ≠ "" → ts ≠ 0 →
      env.isChainSupported targetChain = some true →
      env.fetchChainPrice targetChain = some gasPrice →
      env.nowMs - gasPrice.timestampMs > 300000 →
      purchaseWorkflow env req
        = (.stalePrice (env.nowMs - gasPrice.timestampMs), []))
    ∧ ∀ (env : PurchaseEnv) (req : PurchaseReq),
      isEarlyPurchaseFailure (purchaseWorkflow env req).1 = true →
      (purchaseWorkflow env req).2 = [] := by
  constructor
  · intro env req user usdcAmount targetChain expiryDays sig ts gasPrice
      hu ha hc he hs ht hu1 ha1 hc1 he1 hs1 ht1 hsup hprice hstale
    have hstale2 : env.nowMs - gasPrice.timestampMs > PRICE_STALENESS_MS := hstale
    simp [purchaseWorkflow, hu, ha, hc, he, hs, ht, hu1, ha1, hc1, he1, hs1, ht1,
      hsup, hprice, hstale2]
  · intro env req
    rcases hw : purchaseWorkflow env req with ⟨res, trace⟩
    intro h
    unfold purchaseWorkflow at hw
    dsimp only at hw
    repeat' split at hw
    all_goals (cases hw; simp_all [isEarlyPurchaseFailure])

/-- Concrete instance of `purchase_stale_rejected_zero_mutations`: a price
observed 360000 ms (6 minutes) before the current time is rejected as stale
with no settlement call. -/
theorem purchase_stale_rejected_zero_mutations_witness :
    purchaseWorkflow
      ⟨fun _ => some true,
       fun _ => some ⟨"base", "20000000000", "20.000000", "20000000000",
         "20000000000", 1000000, "ETH"⟩,
       fun _ _ _ _ _ _ => true, fun _ _ _ _ _ _ => some ("0xtx", 1), 1360000⟩
      ⟨some "0xab", some "1000000", some "base", some 7, some "sig", some 1700⟩
      = (.stalePrice 360000, []) := by
  exact purchase_stale_rejected_zero_mutations.1
    ⟨fun _ => some true,
     fun _ => some ⟨"base", "20000000000", "20.000000", "20000000000",
       "20000000000", 1000000, "ETH"⟩,
     fun _ _ _ _ _ _ => true, fun _ _ _ _ _ _ => some ("0xtx", 1), 1360000⟩
    ⟨some "0xab", some "1000000", some "base", some 7, some "sig", some 1700⟩
    "0xab" "1000000" "base" 7 "sig" 1700
    ⟨"base", "20000000000", "20.000000", "20000000000", "20000000000", 1000000, "ETH"⟩
    rfl rfl rfl rfl rfl rfl (by decide) (by decide) (by decide) (by decide)
    (by decide) (by decide) rfl rfl (by decide)

/-- C2: a redeem whose explicit requested amount exceeds the position's
remaining balance fails with the insufficient-balance error, with an empty
collaborator trace: neither the signature verification nor the settlement
call is reached. -/
theorem redeem_over_balance_rejected_before_sig
    (env : RedeemEnv) (req : RedeemReq) (user : String) (tokenId : Int)
    (wethAmount sig : String) (ts : Int) (position : GasPosition) (requested : Int)
    (hu : req.user = some user) (htid : req.tokenId = some tokenId)
    (hw : req.wethAmount = some wethAmount) (hsig : req.userSignature = some sig)
    (hts : req.timestamp = some ts)
    (hu1 : user ≠ "") (hw1 : wethAmount ≠ "") (hs1 : sig ≠ "") (ht1 : ts ≠ 0)
    (hpos : getPositionI env.chain tokenId = some position)
    (hown : toLowerStr position.owner = toLowerStr user)
    (hexp : ¬ position.expiry < env.nowSec)
    (hmax : wethAmount ≠ "max")
    (hjs : jsBigInt wethAmount = some requested)
    (hgt : requested > position.remainingWethAmount) :
    redeemWorkflow env req = (.insufficientBalance, []) := by
  simp [redeemWorkflow, hu, htid, hw, hsig, hts, hu1, hw1, hs1, ht1, hpos, hown,
    hexp, hmax, hjs, hgt]

/-- Concrete instance of `redeem_over_balance_rejected_before_sig`: requesting
11 wei from a position with 10 remaining is rejected with no signature check
and no settlement call. -/
theorem redeem_over_balance_rejected_before_sig_witness :
    redeemWorkflow envC2 ⟨some "0xAAA", some 5, some "11", some "sg", some 7⟩
      = (.insufficientBalance, []) := by
  exact redeem_over_balance_rejected_before_sig envC2
    ⟨some "0xAAA", some 5, some "11", some "sg", some 7⟩
    "0xAAA" 5 "11" "sg" 7 posC2 11
    rfl rfl rfl rfl rfl (by decide) (by decide) (by decide) (by decide)
    (by decide) (by decide) (by decide) (by decide) (by decide) (by decide)

/-- C4: a same-chain redeem never reaches the bridge collaborator (no quote
call ever appears in the trace), and on the happy path it succeeds with
`bridgeInfo = direct` and empty (`0x`) calldata passed to the settlement
call. -/
theorem redeem_same_chain_direct_no_bridge :
    (∀ (env : RedeemEnv) (req : RedeemReq) (tokenId : Int) (position : GasPosition),
      req.tokenId = some tokenId →
      getPositionI env.chain tokenId = some position →
      isSameChain env.sourceChain position.targetChain = true →
      ∀ fc tc am fa ta, RedeemCall.quoteCall fc tc am fa ta ∉ (redeemWorkflow env req).2)
    ∧ ∀ (env : RedeemEnv) (req : RedeemReq) (user : String) (tokenId : Int)
        (wethAmount sig : String) (ts : Int) (position : GasPosition)
        (requested : Int) (txHash : String),
      req.user = some user → req.tokenId = some tokenId →
      req.wethAmount = some wethAmount → req.userSignature = some sig →
      req.timestamp = some ts →
      user ≠ "" → wethAmount ≠ "" → sig ≠ "" → ts ≠ 0 →
      getPositionI env.chain tokenId = some position →
      toLowerStr position.owner = toLowerStr user →
      ¬ position.expiry < env.nowSec →
      (if wethAmount = "max" then some position.remainingWethAmount
        else jsBigInt wethAmount) = some requested →
      ¬ requested > position.remainingWethAmount →
      env.verifyRedeem user tokenId requested ts sig = true →
      isSameChain env.sourceChain position.targetChain = true →
      env.redeemPosition tokenId requested "0x" user = some txHash →
      redeemWorkflow env req
        = (.success txHash requested position.targetChain .direct,
          [.sigVerify, .settleCall tokenId requested "0x" user]) := by
  constructor
  · intro env req tokenId position htid hpos hsame fc tc am fa ta
    rcases hw : redeemWorkflow env req with ⟨res, trace⟩
    unfold redeemWorkflow at hw
    repeat' split at hw
    all_goals (cases hw; simp_all)
  · intro env req user tokenId wethAmount sig ts position requested txHash
      hu htid hw hsig hts hu1 hw1 hs1 ht1 hpos hown hexp hres hle hver hsame hsettle
    simp [redeemWorkflow, hu, htid, hw, hsig, hts, hu1, hw1, hs1, ht1, hpos, hown,
      hexp, hres, hle, hver, hsame, hsettle]

/-- Concrete instance of `redeem_same_chain_direct_no_bridge`: redeeming the
full balance of a position targeting the source chain succeeds directly with
`0x` calldata and no bridge quote. -/
theorem redeem_same_chain_direct_no_bridge_witness :
    redeemWorkflow envC2 ⟨some "0xAAA", some 5, some "max", some "sg", some 7⟩
      = (.success "0xtx" 10 "base" .direct,
        [.sigVerify, .settleCall 5 10 "0x" "0xAAA"]) := by
  exact redeem_same_chain_direct_no_bridge.2 envC2
    ⟨some "0xAAA", some 5, some "max", some "sg", some 7⟩
    "0xAAA" 5 "max" "sg" 7 posC2 10 "0xtx"
    rfl rfl rfl rfl rfl (by decide) (by decide) (by decide) (by decide)
    (by decide) (by decide) (by decide) (by decide) (by decide) rfl (by decide) rfl

/-- C5: the `"max"` sentinel resolves to exactly the position's remaining
balance: the whole workflow output (result and collaborator trace) for a
`"max"` request coincides with that of an explicit request whose literal
amount converts to the remaining balance, and on the happy path the sentinel
settles exactly `position.remainingWethAmount`. -/
theorem redeem_max_sentinel_equals_literal :
    (∀ (env : RedeemEnv) (req : RedeemReq) (tokenId : Int) (position : GasPosition)
        (s : String),
      req.tokenId = some tokenId →
      getPositionI env.chain tokenId = some position →
      s ≠ "max" → s ≠ "" →
      jsBigInt s = some position.remainingWethAmount →
      redeemWorkflow env { req with wethAmount := some s }
        = redeemWorkflow env { req with wethAmount := some "max" })
    ∧ ∀ (env : RedeemEnv) (req : RedeemReq) (user : String) (tokenId : Int)
        (sig : String) (ts : Int) (position : GasPosition) (txHash : String),
      req.user = some user → req.tokenId = some tokenId →
      req.wethAmount = some "max" → req.userSignature = some sig →
      req.timestamp = some ts →
      user ≠ "" → sig ≠ "" → ts ≠ 0 →
      getPositionI env.chain tokenId = some position →
      toLowerStr position.owner = toLowerStr user →
      ¬ position.expiry < env.nowSec →
      env.verifyRedeem user tokenId position.remainingWethAmount ts sig = true →
      isSameChain env.sourceChain position.targetChain = true →
      env.redeemPosition tokenId position.remainingWethAmount "0x" user = some txHash →
      redeemWorkflow env req
        = (.success txHash position.remainingWethAmount position.targetChain .direct,
          [.sigVerify, .settleCall tokenId position.remainingWethAmount "0x" user]) := by
  constructor
  · intro env req tokenId position s htid hpos hmax hempty hjs
    rcases req with ⟨u, t0, w, sg, t⟩
    simp only at htid
    subst htid
    cases u <;> cases sg <;> cases t <;>
      simp [redeemWorkflow, hpos, hmax, hempty, hjs,
        show ("max" : String) ≠ "" by decide]
  · intro env req user tokenId sig ts position txHash
      hu htid hw hsig hts hu1 hs1 ht1 hpos hown hexp hver hsame hsettle
    simp [redeemWorkflow, hu, htid, hw, hsig, hts, hu1, hs1, ht1, hpos, hown,
      hexp, hver, hsame, hsettle, show ("max" : String) ≠ "" by decide]

/-- Concrete instance of `redeem_max_sentinel_equals_literal`: on a position
with 10 wei remaining, requesting `"10"` behaves identically to requesting
`"max"`. -/
theorem redeem_max_sentinel_equals_literal_witness :
    redeemWorkflow envC2 ⟨some "0xAAA", some 5, some "10", some "sg", some 7⟩
      = redeemWorkflow envC2 ⟨some "0xAAA", some 5, some "max", some "sg", some 7⟩ := by
  exact redeem_max_sentinel_equals_literal.1 envC2
    ⟨some "0xAAA", some 5, some "junk", some "sg", some 7⟩
    5 posC2 "10" rfl (by decide) (by decide) (by decide) (by decide)

/-- C10: a redeem amount string converting to a non-positive value (such as
`"0"`) that does not exceed the remaining balance passes validation and the
balance check and reaches the settlement call with that amount; the workflow
never answers `ValidationError` once the required fields are present and
truthy, whatever the amount string. -/
theorem redeem_zero_amount_reaches_settlement
    (env : RedeemEnv) (req : RedeemReq) (user : String) (tokenId : Int)
    (wethAmount sig : String) (ts : Int) (position : GasPosition) (requested : Int)
    (hu : req.user = some user) (htid : req.tokenId = some tokenId)
    (hw : req.wethAmount = some wethAmount) (hsig : req.userSignature = some sig)
    (hts : req.timestamp = some ts)
    (hu1 : user ≠ "") (hw1 : wethAmount ≠ "") (hs1 : sig ≠ "") (ht1 : ts ≠ 0)
    (hpos : getPositionI env.chain tokenId = some position)
    (hown : toLowerStr position.owner = toLowerStr user)
    (hexp : ¬ position.expiry < env.nowSec)
    (hmax : wethAmount ≠ "max")
    (hjs : jsBigInt wethAmount = some requested)
    (hle : ¬ requested > position.remainingWethAmount)
    (hver : env.verifyRedeem user tokenId requested ts sig = true)
    (hsame : isSameChain env.sourceChain position.targetChain = true) :
    RedeemCall.settleCall tokenId requested "0x" user ∈ (redeemWorkflow env req).2
    ∧ ∀ (env2 : RedeemEnv) (req2 : RedeemReq) (u2 : String) (tid2 : Int)
        (w2 s2 : String) (t2 : Int),
        req2.user = some u2 → req2.tokenId = some tid2 → req2.wethAmount = some w2 →
        req2.userSignature = some s2 → req2.timestamp = some t2 →
        u2 ≠ "" → w2 ≠ "" → s2 ≠ "" → t2 ≠ 0 →
        (redeemWorkflow env2 req2).1 ≠ .validationError := by
  constructor
  · simp only [redeemWorkflow, hu, htid, hw, hsig, hts, hpos]
    simp [hu1, hw1, hs1, ht1, hown, hexp, hmax, hjs, hle, hver, hsame]
    split <;> simp
  · intro env2 req2 u2 tid2 w2 s2 t2 h1 h2 h3 h4 h5 h6 h7 h8 h9
    rcases hw2 : redeemWorkflow env2 req2 with ⟨res, trace⟩
    unfold redeemWorkflow at hw2
    rw [h1, h2, h3, h4, h5] at hw2
    dsimp only at hw2
    rw [if_neg (by simp [h6, h7, h8, h9])] at hw2
    repeat' split at hw2
    all_goals (cases hw2; simp_all)

/-- Concrete instance of `redeem_zero_amount_reaches_settlement`: the amount
string `"0"` flows through to a settlement call redeeming 0 wei. -/
theorem redeem_zero_amount_reaches_settlement_witness :
    RedeemCall.settleCall 5 0 "0x" "0xAAA"
      ∈ (redeemWorkflow envC2 ⟨some "0xAAA", some 5, some "0", some "sg", some 7⟩).2 := by
  exact (redeem_zero_amount_reaches_settlement envC2
    ⟨some "0xAAA", some 5, some "0", some "sg", some 7⟩
    "0xAAA" 5 "0" "sg" 7 posC2 0
    rfl rfl rfl rfl rfl (by decide) (by decide) (by decide) (by decide)
    (by decide) (by decide) (by decide) (by decide) (by decide) (by decide)
    rfl (by decide)).1

/-- The early-stop check never distorts a batch: when the balance equals the
positions accumulated so far plus those remaining in this batch and later
ones (`k`), the batch accumulates exactly its matching positions, and it can
only signal an early stop when nothing (`k = 0`) remains after it. -/
theorem scanBatch_run (env : ChainEnv) (user : String) (bal : Nat) :
    ∀ (ids : List Nat) (acc : List GasPosition) (k : Nat),
      bal = acc.length + (ids.filterMap (scanStep env user)).length + k →
      (scanBatch env user bal ids acc).1 = acc ++ ids.filterMap (scanStep env user)
      ∧ ((scanBatch env user bal ids acc).2 = true → k = 0) := by
  intro ids
  induction ids with
  | nil =>
    intro acc k h
    simp [scanBatch]
  | cons id rest ih =>
    intro acc k h
    cases hs : scanStep env user id with
    | none =>
      have hfm : (id :: rest).filterMap (scanStep env user)
          = rest.filterMap (scanStep env user) := by
        simp [List.filterMap_cons, hs]
      rw [hfm] at h ⊢
      by_cases hb : bal ≤ acc.length
      · have hz : (rest.filterMap (scanStep env user)).length = 0 ∧ k = 0 := by omega
        refine ⟨?_, fun _ => hz.2⟩
        simp [scanBatch, hs, hb, List.length_eq_zero.mp hz.1]
      · have hrec := ih acc k h
        constructor
        · simpa [scanBatch, hs, hb] using hrec.1
        · simpa [scanBatch, hs, hb] using hrec.2
    | some p =>
      have hfm : (id :: rest).filterMap (scanStep env user)
          = p :: rest.filterMap (scanStep env user) := by
        simp [List.filterMap_cons, hs]
      rw [hfm] at h ⊢
      by_cases hb : bal ≤ acc.length + 1
      · have hz : (rest.filterMap (scanStep env user)).length = 0 ∧ k = 0 := by
          simp at h
          omega
        refine ⟨?_, fun _ => hz.2⟩
        simp [scanBatch, hs, hb, List.length_eq_zero.mp hz.1]
      · have hinv : bal = (acc ++ [p]).length
            + (rest.filterMap (scanStep env user)).length + k := by
          simp at h ⊢
          omega
        have hrec := ih (acc ++ [p]) k hinv
        constructor
        · have h1 := hrec.1
          simp only [scanBatch, hs, hb]
          simp only [List.append_assoc, List.singleton_append] at h1
          simpa [hb] using h1
        · have h2 := hrec.2
          simpa [scanBatch, hs, hb] using h2

/-- Across batches, the early stop loses nothing: with the balance equal to
the accumulated positions plus all matches remaining in the batch list, the
scan returns exactly the accumulated positions followed by every match. -/
theorem scanBatches_run (env : ChainEnv) (user : String) (bal : Nat) :
    ∀ (bs : List (List Nat)) (acc : List GasPosition),
      bal = acc.length + ((bs.flatten).filterMap (scanStep env user)).length →
      (scanBatches env user bal bs acc).1
        = acc ++ (bs.flatten).filterMap (scanStep env user) := by
  intro bs
  induction bs with
  | nil =>
    intro acc h
    simp [scanBatches]
  | cons b bs ih =>
    intro acc h
    rw [List.flatten_cons, List.filterMap_append] at h ⊢
    rw [List.length_append] at h
    obtain ⟨h1, h2⟩ := scanBatch_run env user bal b acc
      ((bs.flatten).filterMap (scanStep env user)).length (by omega)
    rcases hsb : scanBatch env user bal b acc with ⟨acc2, stopped⟩
    rw [hsb] at h1 h2
    dsimp only at h1 h2
    cases stopped with
    | true =>
      have hz := List.length_eq_zero.mp (h2 rfl)
      rw [hz, List.append_nil]
      simp only [scanBatches, hsb]
      exact h1
    | false =>
      have hinv : bal = acc2.length
          + ((bs.flatten).filterMap (scanStep env user)).length := by
        rw [h1, List.length_append]
        omega
      have hrec := ih acc2 hinv
      simp only [scanBatches, hsb]
      rw [hrec, h1, List.append_assoc]

/-- Joining the batches of size 50 recovers the original id list whenever the
fuel covers its length. -/
theorem chunk50_flatten : ∀ (fuel : Nat) (ids : List Nat), ids.length ≤ fuel →
    (chunk50 fuel ids).flatten = ids := by
  intro fuel
  induction fuel with
  | zero =>
    intro ids h
    have : ids = [] := List.length_eq_zero.mp (Nat.le_zero.mp h)
    simp [this, chunk50]
  | succ fuel ih =>
    intro ids h
    cases ids with
    | nil => simp [chunk50]
    | cons id rest =>
      have hd : ((id :: rest).drop 50).length ≤ fuel := by
        rw [List.length_drop, List.length_cons]
        rw [List.length_cons] at h
        omega
      simp only [chunk50, List.flatten_cons, ih _ hd]
      exact List.take_append_drop 50 (id :: rest)

/-- A token id the user does not own (per the case-insensitive ownership
test) contributes nothing to the scan. -/
theorem scanStep_none_of_not_owned (env : ChainEnv) (user : String) (id : Nat)
    (h : ownedBy env user id = false) : scanStep env user id = none := by
  unfold ownedBy at h
  cases ho : env.ownerOf id with
  | none => simp [scanStep, ho]
  | some o =>
    rw [ho] at h
    simp at h
    simp [scanStep, ho, h]

/-- A token id the user owns, whose detail read succeeds, contributes a
position to the scan. -/
theorem scanStep_isSome_of_owned (env : ChainEnv) (user : String) (id : Nat)
    (h : ownedBy env user id = true)
    (hdetail : (env.getPositionRaw id).isSome = true) :
    (scanStep env user id).isSome = true := by
  unfold ownedBy at h
  cases ho : env.ownerOf id with
  | none => rw [ho] at h; cases h
  | some o =>
    rw [ho] at h
    simp at h
    cases hr : env.getPositionRaw id with
    | none => rw [hr] at hdetail; simp at hdetail
    | some d => simp [scanStep, getPositionM, ho, h, hr]

/-- When every owned id in the list has a readable detail, the number of
owned ids equals the number of positions the scan materialises. -/
theorem filter_owned_length_eq (env : ChainEnv) (user : String) :
    ∀ (ids : List Nat),
      (∀ id ∈ ids, ownedBy env user id = true →
        (env.getPositionRaw id).isSome = true) →
      (ids.filter (fun id => ownedBy env user id)).length
        = (ids.filterMap (scanStep env user)).length := by
  intro ids
  induction ids with
  | nil => intro _; simp
  | cons id rest ih =>
    intro hdet
    have hrest : ∀ i ∈ rest, ownedBy env user i = true →
        (env.getPositionRaw i).isSome = true :=
      fun i hi => hdet i (List.mem_cons_of_mem _ hi)
    cases ho : ownedBy env user id with
    | false =>
      simp [List.filter_cons, List.filterMap_cons, ho,
        scanStep_none_of_not_owned env user id ho, ih hrest]
    | true =>
      have hs := scanStep_isSome_of_owned env user id ho
        (hdet id (List.mem_cons_self id rest) ho)
      obtain ⟨p, hp⟩ := Option.isSome_iff_exists.mp hs
      simp [List.filter_cons, List.filterMap_cons, ho, hp, ih hrest]

/-- The scan returns a position whose token id is the scanned id. -/
theorem scanStep_tokenId (env : ChainEnv) (user : String) (id : Nat)
    (p : GasPosition) (h : scanStep env user id = some p) : p.tokenId = id := by
  cases ho : env.ownerOf id with
  | none => simp [scanStep, ho] at h
  | some o =>
    by_cases hl : toLowerStr o = toLowerStr user
    · cases hr : env.getPositionRaw id with
      | none => simp [scanStep, getPositionM, ho, hr, hl] at h
      | some d =>
        simp [scanStep, getPositionM, ho, hr, hl] at h
        rw [← h]
    · simp [scanStep, ho, hl] at h

/-- The token ids of the scanned positions are exactly the ids the scan
found a position for. -/
theorem filterMap_scanStep_map_tokenId (env : ChainEnv) (user : String) :
    ∀ (ids : List Nat),
      (ids.filterMap (scanStep env user)).map GasPosition.tokenId
        = ids.filter (fun id => (scanStep env user id).isSome) := by
  intro ids
  induction ids with
  | nil => simp
  | cons id rest ih =>
    cases hs : scanStep env user id with
    | none => simp [List.filterMap_cons, List.filter_cons, hs, ih]
    | some p =>
      simp [List.filterMap_cons, List.filter_cons, hs, ih,
        scanStep_tokenId env user id p hs]

/-- With readable details, the ids the scan keeps are exactly the owned ids. -/
theorem filter_isSome_eq_owned (env : ChainEnv) (user : String)
    (ids : List Nat)
    (hdet : ∀ id ∈ ids, ownedBy env user id = true →
      (env.getPositionRaw id).isSome = true) :
    ids.filter (fun id => (scanStep env user id).isSome)
      = ids.filter (fun id => ownedBy env user id) := by
  apply List.filter_congr
  intro id hid
  cases ho : ownedBy env user id with
  | false => simp [scanStep_none_of_not_owned env user id ho]
  | true => simp [scanStep_isSome_of_owned env user id ho (hdet id hid ho)]

set_option maxRecDepth 10000 in
/-- C7: when `balanceOf` reports exactly the number of tokens the user owns
among ids below `maxScan` (and their details are readable), the batched
early-stopping `getUserPositions` returns the same list as the exhaustive
linear scan of the older client, its token ids are exactly the owned ids,
and on the spec's concrete scenario (owned ids 2, 57 and 900, balance 3,
`maxScan = 1000`) it returns exactly those three positions while issuing
only 950 ownership lookups: no lookup is issued after the batch in which
the early stop fired. -/
theorem getUserPositions_early_stop_exact
    (env : ChainEnv) (user : String) (n : Nat)
    (hbal : env.balanceOf user
      = some (((List.range n).filter (fun id => ownedBy env user id)).length))
    (hdetail : ∀ id, id < n → ownedBy env user id = true →
      (env.getPositionRaw id).isSome = true) :
    getUserPositions env user n = getUserPositionsLinear env user n
    ∧ (getUserPositions env user n).map GasPosition.tokenId
      = (List.range n).filter (fun id => ownedBy env user id)
    ∧ getUserPositionsRun scanEnvC7 "0xowner" 1000
      = ([posC7 2, posC7 57, posC7 900], 950) := by
  have hdet : ∀ id ∈ List.range n, ownedBy env user id = true →
      (env.getPositionRaw id).isSome = true := by
    intro id hid
    exact hdetail id (List.mem_range.mp hid)
  have hcnt := filter_owned_length_eq env user (List.range n) hdet
  have hbal2 : env.balanceOf user
      = some (((List.range n).filterMap (scanStep env user)).length) := by
    rw [hbal, hcnt]
  have hlin : getUserPositions env user n = getUserPositionsLinear env user n := by
    unfold getUserPositions getUserPositionsRun getUserPositionsLinear
    rw [hbal2]
    dsimp only
    by_cases h0 : ((List.range n).filterMap (scanStep env user)).length = 0
    · rw [if_pos h0]
      exact (List.length_eq_zero.mp h0).symm
    · rw [if_neg h0]
      have hj := chunk50_flatten n (List.range n) (by rw [List.length_range])
      have hrun := scanBatches_run env user
        (((List.range n).filterMap (scanStep env user)).length)
        (chunk50 n (List.range n)) [] (by rw [hj]; simp)
      rw [hj] at hrun
      simpa using hrun
  refine ⟨hlin, ?_, by decide⟩
  rw [hlin]
  unfold getUserPositionsLinear
  rw [filterMap_scanStep_map_tokenId]
  exact filter_isSome_eq_owned env user (List.range n) hdet

set_option maxRecDepth 10000 in
/-- Concrete instance of `getUserPositions_early_stop_exact`: on the
three-token scenario the batched scan agrees with the exhaustive linear
scan, and its result is exactly the owned ids. -/
theorem getUserPositions_early_stop_exact_witness :
    getUserPositions scanEnvC7 "0xowner" 1000
      = getUserPositionsLinear scanEnvC7 "0xowner" 1000
    ∧ (getUserPositions scanEnvC7 "0xowner" 1000).map GasPosition.tokenId
      = (List.range 1000).filter (fun id => ownedBy scanEnvC7 "0xowner" id) := by
  have h := getUserPositions_early_stop_exact scanEnvC7 "0xowner" 1000
    (by decide) (by decide)
  exact ⟨h.1, h.2.1⟩

/-- C9 counterexample: an error raised by a collaborator call inside the
enumeration does not make `getUserPositions` return the empty list: with the
ownership lookup for token 0 failing and token 1 owned by the caller, the
scan still returns token 1's position. -/
theorem getUserPositions_item_error_counterexample :
    chainC9.ownerOf 0 = none
    ∧ getUserPositions chainC9 "0xbb" 2 = [posC9]
    ∧ ([posC9] : List GasPosition) ≠ [] := by
  refine ⟨rfl, by decide, by decide⟩

/-- C9 (amended): only errors that escape the per-item handlers — in
particular a failure of the initial `balanceOf` read — make
`getUserPositions` return the empty list (indistinguishable from a user
owning no positions, which also yields the empty list); a failing per-id
ownership lookup merely causes that token id to be skipped.  In no case is
the error propagated. -/
theorem getUserPositions_error_containment :
    (∀ (env : ChainEnv) (user : String) (n : Nat),
      env.balanceOf user = none → getUserPositionsRun env user n = ([], 0))
    ∧ (∀ (env : ChainEnv) (user : String) (n : Nat),
      env.balanceOf user = some 0 → getUserPositionsRun env user n = ([], 0))
    ∧ (∀ (env : ChainEnv) (user : String) (id : Nat),
      env.ownerOf id = none → scanStep env user id = none) := by
  refine ⟨?_, ?_, ?_⟩
  · intro env user n h
    simp [getUserPositionsRun, h]
  · intro env user n h
    simp [getUserPositionsRun, h]
  · intro env user id h
    simp [scanStep, h]

/-- Concrete instance of `getUserPositions_error_containment`: a failing
`balanceOf` read yields the empty list with zero lookups even though every
token is owned by the caller, and the failing per-id lookup of the
counterexample scenario is skipped. -/
theorem getUserPositions_error_containment_witness :
    getUserPositionsRun chainC9b "0xcc" 1000 = ([], 0)
    ∧ scanStep chainC9 "0xbb" 0 = none := by
  exact ⟨getUserPositions_error_containment.1 chainC9b "0xcc" 1000 rfl,
    getUserPositions_error_containment.2.2 chainC9 "0xbb" 0 rfl⟩
